import Mathlib

/-!
Shallow embedding of `crawly.py` (instagram-scraper).

Python dictionaries coming back from `response.json()` are modelled by the
`Json` inductive below; `d[k]` access that can raise `KeyError` is modelled
with `Option`/`Except`.  Methods that perform network requests take the
response (or a stream of responses) as an explicit argument, and the
`while` loop of `extract_recent_tag` is modelled with explicit fuel so
that non-termination is observable as a distinguished exit value.
-/

/-- A JSON value as produced by `response.json()` in the Python source. -/
inductive Json where
  | null
  | bool (b : Bool)
  | num (n : Int)
  | str (s : String)
  | arr (xs : List Json)
  | obj (fields : List (String × Json))
deriving Repr

/-- Python `d[k]` as an `Option`: key lookup on an object, `none` otherwise.
Key lookup on a non-object raises in Python; every call site below routes
the `none` result into the corresponding exception path. -/
def Json.get? (j : Json) (key : String) : Option Json :=
  match j with
  | .obj fields => fields.lookup key
  | _ => none

/-- Python `d[k]` where a missing key raises `KeyError`. -/
def Json.getE (j : Json) (key : String) : Except String Json :=
  match j.get? key with
  | some v => Except.ok v
  | none => Except.error ("KeyError: " ++ key)

mutual

/-- Structural equality of two `Json` values, modelling the Python `!=`
comparison `cursor != last_cursor` on values decoded from JSON (the cursor
values compared in `extract_recent_tag` are strings or `None`). -/
def Json.beq : Json → Json → Bool
  | .null, .null => true
  | .bool a, .bool c => a == c
  | .num a, .num c => a == c
  | .str a, .str c => a == c
  | .arr xs, .arr ys => Json.beqList xs ys
  | .obj fs, .obj gs => Json.beqFields fs gs
  | _, _ => false

/-- Elementwise `Json.beq` on arrays. -/
def Json.beqList : List Json → List Json → Bool
  | [], [] => true
  | x :: xs, y :: ys => Json.beq x y && Json.beqList xs ys
  | _, _ => false

/-- Keyed `Json.beq` on object field lists. -/
def Json.beqFields : List (String × Json) → List (String × Json) → Bool
  | [], [] => true
  | (k, v) :: fs, (l, w) :: gs => k == l && Json.beq v w && Json.beqFields fs gs
  | _, _ => false

end

/-- The `InstagramUser` class of `crawly.py`: a record of the constructor
arguments.  `extract_owner_details` only ever passes `user_id`, `username`
and `is_private`; the remaining fields keep their `None` defaults. -/
structure InstagramUser where
  id : Json
  username : Option Json
  bio : Option Json
  followers_count : Option Json
  following_count : Option Json
  is_private : Bool
deriving Repr

/-- The `InstagramPost` class of `crawly.py`: a record of the constructor
arguments as set in `extract_instagram_posts`. -/
structure InstagramPost where
  post_id : Json
  code : Json
  user : InstagramUser
  caption : Option Json
  tags : List Json
  comments : Json
  likes : Json
  img_small : Json
  img_large : Json
  is_video : Json
  created_at : Json
deriving Repr

/-- Character class `[a-zA-Z0-9]` of the hashtag regular expression. -/
def isTagChar (c : Char) : Bool :=
  (97 ≤ c.toNat && c.toNat ≤ 122) ||
  (65 ≤ c.toNat && c.toNat ≤ 90) ||
  (48 ≤ c.toNat && c.toNat ≤ 57)

/-- One character step of the left-to-right scan performed by
`re.findall("#[a-zA-Z0-9]+", caption)`.  The state is the list of finished
matches plus, when the scanner sits inside a candidate match, the
characters matched after the `#` so far (in reverse).  A match needs at
least one `[a-zA-Z0-9]` character after the `#` and is maximal; scanning
resumes at the character that ended a match. -/
def hashtagScanStep (st : List (List Char) × Option (List Char)) (c : Char) :
    List (List Char) × Option (List Char) :=
  match st.2 with
  | none => if c = '#' then (st.1, some []) else (st.1, none)
  | some run =>
    if isTagChar c then (st.1, some (c :: run))
    else if run.isEmpty then
      if c = '#' then (st.1, some []) else (st.1, none)
    else
      let fin := st.1 ++ [('#' :: run.reverse)]
      if c = '#' then (fin, some []) else (fin, none)

/-- The list of matches of `re.findall("#[a-zA-Z0-9]+", s)`, in order of
occurrence. -/
def re_findall_hashtag (s : String) : List String :=
  let st := s.data.foldl hashtagScanStep ([], none)
  let fin :=
    match st.2 with
    | some run => if run.isEmpty then st.1 else st.1 ++ [('#' :: run.reverse)]
    | none => st.1
  fin.map (fun cs => String.mk cs)

/-- The method `InstagramPost.hashtags` (lines 68 to 79), as a function of
the caption the post was constructed with: `None` yields the empty list,
otherwise the caption string is scanned with the regular expression
`#[a-zA-Z0-9]+`. -/
def hashtags (caption : Option String) : List String :=
  match caption with
  | none => []
  | some s => re_findall_hashtag s

/-- The static method `HashTagSearch.extract_owner_details` (lines 188 to
202).  The shadowing `let is_private := if ... then is_private else
is_private` renders the self-assignment `is_private = is_private` of line
200 literally: the value read from the owner object is never consulted. -/
def extract_owner_details (owner : Json) : Except String InstagramUser :=
  let username : Option Json := none
  let username := if (owner.get? "username").isSome then owner.get? "username" else username
  let is_private : Bool := false
  let is_private := if (owner.get? "is_private").isSome then is_private else is_private
  match owner.get? "id" with
  | some uid =>
      Except.ok { id := uid, username := username, bio := none,
                  followers_count := none, following_count := none,
                  is_private := is_private }
  | none => Except.error "KeyError: id"

/-- The body of the `for node in nodes` loop of
`HashTagSearch.extract_instagram_posts` (lines 169 to 185) applied to one
node.  Every subscript of the source raises `KeyError` when the key is
absent, modelled by the `Except` bind; only `caption` is guarded by a
presence check. -/
def extract_instagram_post (node : Json) : Except String InstagramPost := do
  let owner ← node.getE "owner"
  let user ← extract_owner_details owner
  let text : Option Json := none
  let text := if (node.get? "caption").isSome then node.get? "caption" else text
  let pid ← node.getE "id"
  let code ← node.getE "code"
  let commentsObj ← node.getE "comments"
  let commentCount ← commentsObj.getE "count"
  let likesObj ← node.getE "likes"
  let likeCount ← likesObj.getE "count"
  let img_small ← node.getE "thumbnail_src"
  let img_large ← node.getE "display_src"
  let created_at ← node.getE "date"
  let is_video ← node.getE "is_video"
  Except.ok { post_id := pid, code := code, user := user, caption := text,
              tags := [], comments := commentCount, likes := likeCount,
              img_small := img_small, img_large := img_large,
              is_video := is_video, created_at := created_at }

/-- `HashTagSearch.extract_instagram_posts` (lines 162 to 186): the nodes
are processed in order and an uncaught `KeyError` on any node aborts the
whole call, discarding the posts accumulated so far. -/
def extract_instagram_posts : List Json → Except String (List InstagramPost)
  | [] => Except.ok []
  | node :: rest => do
      let post ← extract_instagram_post node
      let posts ← extract_instagram_posts rest
      Except.ok (post :: posts)

/-- `HashTagSearch.get_next_results` (lines 139 to 160), as a function of
the response of the single `requests.post` call it performs (an `Except`
value: `error` models a request that raised or a body that failed to parse
as JSON).  `nodes` starts `[]` and `next_cursor` starts at the input
cursor; the `try` block reassigns them step by step, and any exception
(modelled by a failing lookup) is caught, keeping the assignments made so
far.  The feed API always returns an array under `media.nodes`; a
non-array value there is routed to the caught-exception path. -/
def get_next_results (resp : Except String Json) (cursor : Json) : List Json × Json :=
  match resp with
  | .error _ => ([], cursor)
  | .ok response =>
    match response.get? "media" with
    | none => ([], cursor)
    | some media =>
      match media.get? "nodes" with
      | some (.arr ns) =>
        match media.get? "page_info" with
        | none => (ns, cursor)
        | some pi =>
          match pi.get? "end_cursor" with
          | some c => (ns, c)
          | none => (ns, cursor)
      | some _ => ([], cursor)
      | none => ([], cursor)

/-- How a run of the `while` loop of `extract_recent_tag` ended:
`normal` models falling out of the loop condition, `exn` an uncaught
exception from `extract_instagram_posts`, `fuelOut` that the loop was
still running when the fuel ran out. -/
inductive RunExit where
  | normal
  | exn
  | fuelOut
deriving Repr, DecidableEq

/-- The mutable state of a `HashTagSearch` instance observed by the loop:
the `total_images` counter, and for each `save_results` call the value of
`total_images` at the moment of the call together with the batch passed.
The batch list doubles as the record of everything handed to the sink. -/
structure HarvestSt where
  total_images : Nat
  saves : List (Nat × List InstagramPost)
deriving Repr

/-- The `while` loop of `HashTagSearch.extract_recent_tag` (lines 118 to
124).  `next i cursor` stands for `self.get_next_results(tag, cursor)` at
the i-th paginate request of the run; the returned `Nat` counts those
requests.  The loop condition `len(nodes) != 0 and cursor != last_cursor`
is evaluated left to right; the counter increment of line 120 happens
before the `save_results` call of line 122, and `last_cursor` is updated
to the accepted cursor before the next page is fetched. -/
def extract_recent_tag_loop (next : Nat → Json → List Json × Json) :
    Nat → Nat → List Json → Json → Json → HarvestSt → HarvestSt × RunExit × Nat
  | 0, i, _, _, _, st => (st, RunExit.fuelOut, i)
  | fuel + 1, i, nodes, cursor, last_cursor, st =>
    if nodes.length != 0 && !(Json.beq cursor last_cursor) then
      match extract_instagram_posts nodes with
      | .error _ => (st, RunExit.exn, i)
      | .ok posts =>
        let total := st.total_images + posts.length
        let st' : HarvestSt := ⟨total, st.saves ++ [(total, posts)]⟩
        let nc := next i cursor
        extract_recent_tag_loop next fuel (i + 1) nc.1 nc.2 cursor st'
    else (st, RunExit.normal, i)

/-- `HashTagSearch.extract_recent_tag` (lines 108 to 124), as a function
of the parsed body of the initial `requests.get` (an `Except`: `error`
models a request or `.json()` failure) and of the paginate responses.  The
subscripts of lines 115 and 116 are not inside any `try`, so a missing key
aborts the whole method with an uncaught exception.  `last_cursor` starts
as Python `None`, modelled by `Json.null`, and `total_images` starts at
the value the constructor set. -/
def extract_recent_tag (firstResp : Except String Json)
    (next : Nat → Json → List Json × Json) (fuel : Nat) (total0 : Nat) :
    Except String (HarvestSt × RunExit × Nat) := do
  let result ← firstResp
  let tag ← result.getE "tag"
  let media ← tag.getE "media"
  let nodesJ ← media.getE "nodes"
  let pi ← media.getE "page_info"
  let cursor ← pi.getE "end_cursor"
  match nodesJ with
  | .arr nodes =>
      Except.ok (extract_recent_tag_loop next fuel 0 nodes cursor Json.null ⟨total0, []⟩)
  | _ => Except.error "TypeError: nodes is not a list"

/-- Default of the `request_timeout` parameter of `HashTagSearch.__init__`
(line 84); stored on the instance and never read again in the source. -/
def request_timeout : Nat := 10

/-- Default of the `error_timeout` parameter of `HashTagSearch.__init__`
(line 84); stored on the instance and never read again in the source: no
code path sleeps between attempts. -/
def error_timeout : Nat := 10

/-- Default of the `request_retries` parameter of `HashTagSearch.__init__`
(line 84); stored on the instance and never read again in the source: no
code path retries a failed request. -/
def request_retries : Nat := 3

/-- Modelled from the spec: the repository leaves `save_results` abstract
(lines 273 to 279), so the DedupSink of section 4.3 has no implementation
under the source tree; this record carries the `postId` identity key of a
CanonicalPost together with representative content fields. -/
structure CanonicalPost where
  postId : String
  code : String
  caption : Option String
deriving Repr, DecidableEq

/-- Modelled from the spec: the outcome of a DedupSink insert. -/
inductive InsertOutcome where
  | Inserted
  | Duplicate
deriving Repr, DecidableEq

/-- Modelled from the spec: `insert(post) -> Inserted | Duplicate`,
enforced by a uniqueness constraint on `postId` at the storage layer; the
write is attempted and a uniqueness violation is reported as `Duplicate`,
leaving the earlier stored record in place. -/
def DedupSink.insert (store : List (String × CanonicalPost)) (p : CanonicalPost) :
    InsertOutcome × List (String × CanonicalPost) :=
  match store.lookup p.postId with
  | some _ => (InsertOutcome.Duplicate, store)
  | none => (InsertOutcome.Inserted, store ++ [(p.postId, p)])

/-- Modelled from the spec: a sequence of insert attempts against the
sink, returning the per-attempt outcomes in order together with the final
store.  Several runs in a row are the same as one run on the concatenated
attempt list, since the store threads through. -/
def DedupSink.runInserts (store : List (String × CanonicalPost)) :
    List CanonicalPost → List (CanonicalPost × InsertOutcome) × List (String × CanonicalPost)
  | [] => ([], store)
  | p :: ps =>
    let r := DedupSink.insert store p
    let rest := DedupSink.runInserts r.2 ps
    ((p, r.1) :: rest.1, rest.2)

/-- Number of `Inserted` outcomes among the attempts carrying a given
`postId`. -/
def insertedCountFor (pid : String) (log : List (CanonicalPost × InsertOutcome)) : Nat :=
  (log.filter (fun e => e.1.postId == pid && e.2 == InsertOutcome.Inserted)).length

/-- The bookkeeping invariant of the harvest trace: starting from counter
value `t`, each recorded save observed the counter equal to the previous
value plus the length of its own batch. -/
def cumOk : Nat → List (Nat × List InstagramPost) → Prop
  | _, [] => True
  | t, (obs, batch) :: rest => obs = t + batch.length ∧ cumOk obs rest

mutual

theorem Json.beq_refl : ∀ a : Json, Json.beq a a = true
  | .null => rfl
  | .bool b => by simp [Json.beq]
  | .num n => by simp [Json.beq]
  | .str s => by simp [Json.beq]
  | .arr xs => by simpa [Json.beq] using Json.beqList_refl xs
  | .obj fs => by simpa [Json.beq] using Json.beqFields_refl fs

theorem Json.beqList_refl : ∀ xs : List Json, Json.beqList xs xs = true
  | [] => rfl
  | x :: xs => by
      simp only [Json.beqList, Bool.and_eq_true]
      exact ⟨Json.beq_refl x, Json.beqList_refl xs⟩

theorem Json.beqFields_refl : ∀ fs : List (String × Json), Json.beqFields fs fs = true
  | [] => rfl
  | (k, v) :: fs => by
      simp only [Json.beqFields, Bool.and_eq_true, beq_self_eq_true, true_and]
      exact ⟨Json.beq_refl v, Json.beqFields_refl fs⟩

end

/-- A fully populated Flat-variant node, with every field the query of
`get_query_param` requests (lines 233 to 271). -/
def flatNode : Json := Json.obj [
  ("id", Json.str "101"),
  ("code", Json.str "AbC"),
  ("owner", Json.obj [("id", Json.str "u1"), ("username", Json.str "alice"),
                      ("is_private", Json.bool true)]),
  ("caption", Json.str "Great day! #sun #fun2023 #a-b"),
  ("comments", Json.obj [("count", Json.num 2)]),
  ("likes", Json.obj [("count", Json.num 5)]),
  ("thumbnail_src", Json.str "http://t/1.jpg"),
  ("display_src", Json.str "http://d/1.jpg"),
  ("date", Json.num 1450000000),
  ("is_video", Json.bool false)]

/-- A Nested-variant node carrying equivalent data to `flatNode`, with the
fields wrapped one level deeper under a `node` key as described in the
spec (shortcode, caption under edge_media_to_caption, display_url,
taken_at_timestamp). -/
def nestedNode : Json := Json.obj [
  ("node", Json.obj [
    ("id", Json.str "102"),
    ("shortcode", Json.str "XyZ"),
    ("owner", Json.obj [("id", Json.str "u2")]),
    ("edge_media_to_caption", Json.obj [
      ("edges", Json.arr [Json.obj [("node", Json.obj [("text", Json.str "hello")])]])]),
    ("edge_media_to_comment", Json.obj [("count", Json.num 1)]),
    ("edge_liked_by", Json.obj [("count", Json.num 3)]),
    ("thumbnail_src", Json.str "http://t/2.jpg"),
    ("display_url", Json.str "http://d/2.jpg"),
    ("taken_at_timestamp", Json.num 1450000001),
    ("is_video", Json.bool false)])]

/-- A Flat-variant node with the required `id` field missing and every
other requested field present. -/
def noIdNode : Json := Json.obj [
  ("code", Json.str "DeF"),
  ("owner", Json.obj [("id", Json.str "u3")]),
  ("caption", Json.str "no id here"),
  ("comments", Json.obj [("count", Json.num 0)]),
  ("likes", Json.obj [("count", Json.num 0)]),
  ("thumbnail_src", Json.str "http://t/3.jpg"),
  ("display_src", Json.str "http://d/3.jpg"),
  ("date", Json.num 1450000002),
  ("is_video", Json.bool false)]

/-- A Flat-variant node with all required fields present and every
optional field (caption, owner username, owner is_private) absent. -/
def bareNode : Json := Json.obj [
  ("id", Json.str "104"),
  ("code", Json.str "GhI"),
  ("owner", Json.obj [("id", Json.str "u4")]),
  ("comments", Json.obj [("count", Json.num 0)]),
  ("likes", Json.obj [("count", Json.num 1)]),
  ("thumbnail_src", Json.str "http://t/4.jpg"),
  ("display_src", Json.str "http://d/4.jpg"),
  ("date", Json.num 1450000003),
  ("is_video", Json.bool true)]

example : hashtags (some "Great day! #sun #fun2023 #a-b") = ["#sun", "#fun2023", "#a"] := by decide
example : (extract_instagram_posts [flatNode]).isOk = true := by decide
example : (extract_instagram_posts [nestedNode]).isOk = false := by decide
example : (extract_instagram_posts [noIdNode]).isOk = false := by decide
example : (extract_instagram_posts [bareNode]).isOk = true := by decide

/-- Every pass through the loop appends its saves to the existing trace,
each observed counter value is the previous one plus the batch length, and
the final counter is the initial one plus the total number of saved
posts. -/
theorem extract_recent_tag_loop_trace (next : Nat → Json → List Json × Json) :
    ∀ (fuel i : Nat) (nodes : List Json) (cursor last_cursor : Json) (st : HarvestSt),
    ∃ tr, (extract_recent_tag_loop next fuel i nodes cursor last_cursor st).1.saves
            = st.saves ++ tr ∧
      cumOk st.total_images tr ∧
      (extract_recent_tag_loop next fuel i nodes cursor last_cursor st).1.total_images
        = st.total_images + (tr.map fun e => e.2.length).sum := by
  intro fuel
  induction fuel with
  | zero =>
    intro i nodes cursor last_cursor st
    exact ⟨[], by simp [extract_recent_tag_loop, cumOk]⟩
  | succ f ih =>
    intro i nodes cursor last_cursor st
    by_cases hc : (nodes.length != 0 && !(Json.beq cursor last_cursor)) = true
    · rw [extract_recent_tag_loop, if_pos hc]
      cases hex : extract_instagram_posts nodes with
      | error e => exact ⟨[], by simp [cumOk]⟩
      | ok posts =>
        obtain ⟨tr, h1, h2, h3⟩ := ih (i + 1) (next i cursor).1 (next i cursor).2 cursor
          ⟨st.total_images + posts.length,
           st.saves ++ [(st.total_images + posts.length, posts)]⟩
        refine ⟨(st.total_images + posts.length, posts) :: tr, ?_, ?_, ?_⟩
        · simpa using h1
        · exact ⟨rfl, h2⟩
        · simp only [List.map_cons, List.sum_cons]
          simp at h3
          omega
    · rw [extract_recent_tag_loop, if_neg hc]
      exact ⟨[], by simp [cumOk]⟩

/-- Claim C1: if the feed echoes back the cursor it was given, the `while`
loop of `extract_recent_tag` stops within one extra page: it never runs
out of fuel, saves at most one further batch, and issues at most one
further paginate request, because `last_cursor` is updated to the accepted
cursor before the next page is evaluated and the loop condition compares
the returned cursor against it. -/
theorem extract_recent_tag_loop_stops_on_echoed_cursor
    (next : Nat → Json → List Json × Json) (nodes : List Json)
    (cursor last_cursor : Json) (st : HarvestSt) (i fuel : Nat)
    (hecho : (next i cursor).2 = cursor) (hfuel : 2 ≤ fuel) :
    (extract_recent_tag_loop next fuel i nodes cursor last_cursor st).2.1 ≠ RunExit.fuelOut ∧
    (extract_recent_tag_loop next fuel i nodes cursor last_cursor st).1.saves.length
      ≤ st.saves.length + 1 ∧
    (extract_recent_tag_loop next fuel i nodes cursor last_cursor st).2.2 ≤ i + 1 := by
  obtain ⟨f, rfl⟩ : ∃ f, fuel = (f + 1) + 1 := ⟨fuel - 2, by omega⟩
  have hstop : ∀ (nodes' : List Json) (st' : HarvestSt),
      extract_recent_tag_loop next (f + 1) (i + 1) nodes' cursor cursor st'
        = (st', RunExit.normal, i + 1) := by
    intro nodes' st'
    rw [extract_recent_tag_loop, if_neg]
    simp [Json.beq_refl cursor]
  by_cases hc : (nodes.length != 0 && !(Json.beq cursor last_cursor)) = true
  · rw [extract_recent_tag_loop, if_pos hc]
    cases hex : extract_instagram_posts nodes with
    | error e => exact ⟨by simp, by simp, by simp⟩
    | ok posts =>
      dsimp only
      rw [hecho, hstop]
      exact ⟨by simp, by simp, by simp⟩
  · rw [extract_recent_tag_loop, if_neg hc]
    exact ⟨by simp, by simp, by simp⟩

/-- Witness for C1 at a concrete echoing feed and a concrete one-node
batch. -/
theorem extract_recent_tag_loop_stops_on_echoed_cursor_witness :
    (extract_recent_tag_loop (fun _ c => ([flatNode], c)) 2 0 [flatNode]
        (Json.str "c1") Json.null ⟨0, []⟩).2.1 ≠ RunExit.fuelOut ∧
    (extract_recent_tag_loop (fun _ c => ([flatNode], c)) 2 0 [flatNode]
        (Json.str "c1") Json.null ⟨0, []⟩).1.saves.length ≤ ([] : List (Nat × List InstagramPost)).length + 1 ∧
    (extract_recent_tag_loop (fun _ c => ([flatNode], c)) 2 0 [flatNode]
        (Json.str "c1") Json.null ⟨0, []⟩).2.2 ≤ 0 + 1 :=
  extract_recent_tag_loop_stops_on_echoed_cursor
    (fun _ c => ([flatNode], c)) [flatNode] (Json.str "c1") Json.null ⟨0, []⟩ 0 2
    rfl (by decide)

/-- Claim C10: over a run of the loop starting from counter value `init`
and an empty trace, each `save_results` call observes `total_images` equal
to the previous value plus the length of its own batch (the increment
happens before the call), the final counter equals `init` plus the total
number of posts handed to `save_results`, and the counter never
decreases. -/
theorem total_images_tracks_saved_posts (next : Nat → Json → List Json × Json)
    (fuel : Nat) (nodes : List Json) (cursor last_cursor : Json) (init : Nat) :
    cumOk init (extract_recent_tag_loop next fuel 0 nodes cursor last_cursor ⟨init, []⟩).1.saves ∧
    (extract_recent_tag_loop next fuel 0 nodes cursor last_cursor ⟨init, []⟩).1.total_images
      = init + (((extract_recent_tag_loop next fuel 0 nodes cursor last_cursor
          ⟨init, []⟩).1.saves).map fun e => e.2.length).sum ∧
    init ≤ (extract_recent_tag_loop next fuel 0 nodes cursor last_cursor ⟨init, []⟩).1.total_images := by
  obtain ⟨tr, h1, h2, h3⟩ := extract_recent_tag_loop_trace next fuel 0 nodes cursor last_cursor ⟨init, []⟩
  simp only [List.nil_append] at h1
  refine ⟨?_, ?_, ?_⟩
  · rw [h1]; exact h2
  · rw [h1]; exact h3
  · rw [h3]; exact Nat.le_add_right init _

/-- Counterexample to claim C2: on the caption of the specification test
vector, the extractor does not return the claimed list ending in `"#ab"`,
because `re.findall("#[a-zA-Z0-9]+", ...)` stops a match at the first
non-alphanumeric character instead of stripping it. -/
theorem hashtags_spec_vector_not_as_claimed :
    hashtags (some "Great day! #sun #fun2023 #a-b") ≠ ["#sun", "#fun2023", "#ab"] := by
  decide

/-- Claim C2 (amended): hashtag extraction on the caption of the test
vector returns exactly `["#sun", "#fun2023", "#a"]`, in first-occurrence
order with the leading `#` kept: each hashtag is a maximal run of
alphanumeric characters after a `#`, so the `-` inside `#a-b` ends the
token and the trailing `b` is dropped rather than the `-` being stripped
from the interior. -/
theorem hashtags_spec_vector_value :
    hashtags (some "Great day! #sun #fun2023 #a-b") = ["#sun", "#fun2023", "#a"] := by
  decide

/-- Counterexample to claim C3: a batch made of one Flat-variant node and
one Nested-variant node does not normalize both nodes; the Nested node has
no top-level `owner` key, so `extract_instagram_posts` raises and the call
fails instead of producing two posts. -/
theorem nested_variant_batch_fails :
    (extract_instagram_posts [flatNode, nestedNode]).isOk = false := by
  decide

/-- Claim C3 (amended): the normalizer performs no variant classification
and supports only the Flat shape: the Flat node of the batch normalizes on
its own, while the Nested node fails with a `KeyError` on the `owner`
lookup of line 170, and its presence makes the whole two-node batch
fail. -/
theorem only_flat_variant_normalizes :
    (extract_instagram_posts [flatNode]).isOk = true ∧
    extract_instagram_post nestedNode = Except.error "KeyError: owner" ∧
    (extract_instagram_posts [flatNode, nestedNode]).isOk = false := by
  exact ⟨by decide, rfl, by decide⟩

/-- The parsed body of the initial `requests.get` of `extract_recent_tag`
(line 114): one Flat node under `tag.media.nodes` and a string initial
cursor. -/
def firstPageResp : Json := Json.obj [
  ("tag", Json.obj [("media", Json.obj [
    ("nodes", Json.arr [flatNode]),
    ("page_info", Json.obj [("end_cursor", Json.str "c1")])])])]

/-- Claim C4 (behavior at the failing input): with the first page loading
fine and every subsequent paginate request failing (the `requests.post` of
`get_next_results` raising), the run makes exactly one paginate attempt,
sleeps never, raises nothing, and ends normally: the exception is caught
inside `get_next_results`, which returns an empty batch and the unchanged
cursor, so the loop falls out of its condition.  The batch saved before
the failure is still in the trace, and the configured `request_retries`
(3) and `error_timeout` are never consulted. -/
theorem failed_fetch_is_not_retried :
    (∃ r, extract_recent_tag (Except.ok firstPageResp)
        (fun _ c => get_next_results (Except.error "ConnectionError") c) 10 0
        = Except.ok r ∧
      r.2.1 = RunExit.normal ∧ r.2.2 = 1 ∧
      r.1.saves.length = 1 ∧ r.1.total_images = 1) ∧
    request_retries = 3 := by
  refine ⟨⟨_, rfl, rfl, rfl, rfl, rfl⟩, rfl⟩

/-- Bind on a successful `Except` value applies the continuation. -/
theorem exceptBindOk {α β ε : Type} (a : α) (f : α → Except ε β) :
    (Except.ok a >>= f) = f a := rfl

/-- Bind on a failed `Except` value propagates the failure. -/
theorem exceptBindFail {α β ε : Type} (e : ε) (f : α → Except ε β) :
    ((Except.error e : Except ε α) >>= f) = Except.error e := rfl

/-- A node whose `id` or `code` key is absent never extracts successfully:
the uncaught `KeyError` of line 176 is raised regardless of the remaining
fields. -/
theorem extract_instagram_post_missing_required (node : Json)
    (h : node.get? "id" = none ∨ node.get? "code" = none) :
    (extract_instagram_post node).isOk = false := by
  unfold extract_instagram_post
  cases howner : node.getE "owner" with
  | error e => rfl
  | ok owner =>
    simp only [exceptBindOk]
    cases hod : extract_owner_details owner with
    | error e => rfl
    | ok user =>
      simp only [exceptBindOk]
      cases hid2 : node.getE "id" with
      | error e => rfl
      | ok pid =>
        rcases h with h | h
        · simp [Json.getE, h] at hid2
        · simp only [exceptBindOk]
          cases hcode : node.getE "code" with
          | error e => rfl
          | ok code => simp [Json.getE, h] at hcode

/-- A node that fails to extract aborts `extract_instagram_posts` for the
whole batch it sits in, wherever it sits. -/
theorem extract_instagram_posts_abort (node : Json)
    (h : (extract_instagram_post node).isOk = false) :
    ∀ (pre rest : List Json),
      (extract_instagram_posts (pre ++ node :: rest)).isOk = false := by
  intro pre
  induction pre with
  | nil =>
    intro rest
    simp only [List.nil_append]
    rw [extract_instagram_posts]
    cases hp : extract_instagram_post node with
    | error e => rfl
    | ok p => rw [hp] at h; simp [Except.isOk, Except.toBool] at h
  | cons n pre ih =>
    intro rest
    simp only [List.cons_append]
    rw [extract_instagram_posts]
    cases hn : extract_instagram_post n with
    | error e => rfl
    | ok p =>
      simp only [exceptBindOk]
      cases hr : extract_instagram_posts (pre ++ node :: rest) with
      | error e => rfl
      | ok ps =>
        have := ih rest
        rw [hr] at this
        simp [Except.isOk, Except.toBool] at this

/-- Counterexample to claim C5: a batch holding a node with no `id` key
followed by a fully well-formed node yields an error for the whole batch,
so the malformed node is not skipped and the well-formed node is never
returned. -/
theorem malformed_node_aborts_batch_example :
    extract_instagram_posts [noIdNode, flatNode] = Except.error "KeyError: id" := rfl

/-- Claim C5 (amended): a node missing the structurally required `id` or
`code` key is not skipped with a warning; its `KeyError` propagates and
aborts normalization of the entire batch, wherever the node sits in it. -/
theorem missing_required_field_aborts_batch (node : Json) (pre rest : List Json)
    (h : node.get? "id" = none ∨ node.get? "code" = none) :
    (extract_instagram_post node).isOk = false ∧
    (extract_instagram_posts (pre ++ node :: rest)).isOk = false := by
  have hp := extract_instagram_post_missing_required node h
  exact ⟨hp, extract_instagram_posts_abort node hp pre rest⟩

/-- Witness for the amended claim C5 at the concrete malformed node and a
batch that also holds a well-formed node. -/
theorem missing_required_field_aborts_batch_witness :
    (extract_instagram_post noIdNode).isOk = false ∧
    (extract_instagram_posts ([flatNode] ++ noIdNode :: [])).isOk = false :=
  missing_required_field_aborts_batch noIdNode [flatNode] [] (Or.inl rfl)

/-- Claim C7: when every structurally required field of a Flat node is
present, the absence of the optional fields is harmless: the node
normalizes without error into a post whose caption is `None`, whose user
has username `None`, and whose user `is_private` flag is `False`. -/
theorem optional_fields_absent_yield_defaults
    (node owner cm lk uid pid code cc lc ts ds dt iv : Json)
    (howner : node.get? "owner" = some owner)
    (husername : owner.get? "username" = none)
    (hpriv : owner.get? "is_private" = none)
    (huid : owner.get? "id" = some uid)
    (hcaption : node.get? "caption" = none)
    (hid : node.get? "id" = some pid)
    (hcode : node.get? "code" = some code)
    (hcm : node.get? "comments" = some cm)
    (hcc : cm.get? "count" = some cc)
    (hlk : node.get? "likes" = some lk)
    (hlc : lk.get? "count" = some lc)
    (hts : node.get? "thumbnail_src" = some ts)
    (hds : node.get? "display_src" = some ds)
    (hdt : node.get? "date" = some dt)
    (hiv : node.get? "is_video" = some iv) :
    extract_instagram_posts [node] = Except.ok [{
      post_id := pid, code := code,
      user := { id := uid, username := none, bio := none, followers_count := none,
                following_count := none, is_private := false },
      caption := none, tags := [], comments := cc, likes := lc,
      img_small := ts, img_large := ds, is_video := iv, created_at := dt }] := by
  have hop : extract_owner_details owner
      = Except.ok { id := uid, username := none, bio := none, followers_count := none,
                    following_count := none, is_private := false } := by
    unfold extract_owner_details
    rw [husername, hpriv, huid]
    rfl
  rw [extract_instagram_posts, extract_instagram_posts]
  unfold extract_instagram_post
  rw [show node.getE "owner" = Except.ok owner by simp [Json.getE, howner]]
  simp only [exceptBindOk]
  rw [hop]
  simp only [exceptBindOk]
  rw [hcaption]
  rw [show node.getE "id" = Except.ok pid by simp [Json.getE, hid]]
  simp only [exceptBindOk]
  rw [show node.getE "code" = Except.ok code by simp [Json.getE, hcode]]
  simp only [exceptBindOk]
  rw [show node.getE "comments" = Except.ok cm by simp [Json.getE, hcm]]
  simp only [exceptBindOk]
  rw [show cm.getE "count" = Except.ok cc by simp [Json.getE, hcc]]
  simp only [exceptBindOk]
  rw [show node.getE "likes" = Except.ok lk by simp [Json.getE, hlk]]
  simp only [exceptBindOk]
  rw [show lk.getE "count" = Except.ok lc by simp [Json.getE, hlc]]
  simp only [exceptBindOk]
  rw [show node.getE "thumbnail_src" = Except.ok ts by simp [Json.getE, hts]]
  simp only [exceptBindOk]
  rw [show node.getE "display_src" = Except.ok ds by simp [Json.getE, hds]]
  simp only [exceptBindOk]
  rw [show node.getE "date" = Except.ok dt by simp [Json.getE, hdt]]
  simp only [exceptBindOk]
  rw [show node.getE "is_video" = Except.ok iv by simp [Json.getE, hiv]]
  simp only [exceptBindOk]
  rfl

/-- Witness for claim C7 at a concrete node with all optional fields
absent. -/
theorem optional_fields_absent_yield_defaults_witness :
    extract_instagram_posts [bareNode] = Except.ok [{
      post_id := Json.str "104", code := Json.str "GhI",
      user := { id := Json.str "u4", username := none, bio := none,
                followers_count := none, following_count := none,
                is_private := false },
      caption := none, tags := [], comments := Json.num 0, likes := Json.num 1,
      img_small := Json.str "http://t/4.jpg", img_large := Json.str "http://d/4.jpg",
      is_video := Json.bool true, created_at := Json.num 1450000003 }] :=
  optional_fields_absent_yield_defaults bareNode
    (Json.obj [("id", Json.str "u4")]) (Json.obj [("count", Json.num 0)])
    (Json.obj [("count", Json.num 1)]) (Json.str "u4") (Json.str "104")
    (Json.str "GhI") (Json.num 0) (Json.num 1) (Json.str "http://t/4.jpg")
    (Json.str "http://d/4.jpg") (Json.num 1450000003) (Json.bool true)
    rfl rfl rfl rfl rfl rfl rfl rfl rfl rfl rfl rfl rfl rfl rfl

/-- Claim C8: whenever the owner object has an `id` key,
`extract_owner_details` succeeds and the returned user has
`is_private = false`, whatever value the owner object holds under `is_private`,
because line 200 assigns the local default back to itself instead of
reading `owner["is_private"]`. -/
theorem extract_owner_details_is_private_always_false (owner uid : Json)
    (h : owner.get? "id" = some uid) :
    ∃ u, extract_owner_details owner = Except.ok u ∧ u.is_private = false := by
  refine ⟨{ id := uid,
            username := if (owner.get? "username").isSome then owner.get? "username" else none,
            bio := none, followers_count := none, following_count := none,
            is_private := if (owner.get? "is_private").isSome then false else false },
          ?_, ?_⟩
  · unfold extract_owner_details
    rw [h]
  · exact ite_self false

/-- Witness for claim C8 at an owner object that explicitly carries
`is_private: true`: the extracted user still has `is_private = false`. -/
theorem extract_owner_details_is_private_always_false_witness :
    (Json.obj [("id", Json.str "u9"), ("is_private", Json.bool true)]).get? "is_private"
      = some (Json.bool true) ∧
    ∃ u, extract_owner_details (Json.obj [("id", Json.str "u9"), ("is_private", Json.bool true)])
      = Except.ok u ∧ u.is_private = false :=
  ⟨rfl, extract_owner_details_is_private_always_false _ (Json.str "u9") rfl⟩

/-- Claim C9: `get_next_results` is total with respect to fetch failures:
whether the page request raised (the `error` response) or the parsed body
lacks the `media`/`nodes` structure, it returns the empty node list paired
with the input cursor unchanged; and the harvesting loop, entered with an
empty batch, exits normally at once, issuing no further request, retry or
sleep. -/
theorem get_next_results_failure_keeps_cursor (resp : Except String Json) (cursor : Json)
    (h : (∃ e, resp = Except.error e) ∨
      ∃ r, resp = Except.ok r ∧ (r.get? "media").bind (fun m => m.get? "nodes") = none) :
    get_next_results resp cursor = ([], cursor) ∧
    ∀ (next : Nat → Json → List Json × Json) (fuel i : Nat) (c last_cursor : Json)
      (st : HarvestSt),
      extract_recent_tag_loop next (fuel + 1) i [] c last_cursor st
        = (st, RunExit.normal, i) := by
  constructor
  · rcases h with ⟨e, rfl⟩ | ⟨r, rfl, hm⟩
    · rfl
    · cases hmedia : r.get? "media" with
      | none => simp only [get_next_results, hmedia]
      | some media =>
        rw [hmedia] at hm
        have hm2 : media.get? "nodes" = none := hm
        simp only [get_next_results, hmedia, hm2]
  · intro next fuel i c last_cursor st
    rw [extract_recent_tag_loop, if_neg]
    simp

/-- Witness for claim C9 at a concrete raised request. -/
theorem get_next_results_failure_keeps_cursor_witness :
    get_next_results (Except.error "requests.exceptions.Timeout") (Json.str "c7")
      = ([], Json.str "c7") ∧
    ∀ (next : Nat → Json → List Json × Json) (fuel i : Nat) (c last_cursor : Json)
      (st : HarvestSt),
      extract_recent_tag_loop next (fuel + 1) i [] c last_cursor st
        = (st, RunExit.normal, i) :=
  get_next_results_failure_keeps_cursor (Except.error "requests.exceptions.Timeout")
    (Json.str "c7") (Or.inl ⟨"requests.exceptions.Timeout", rfl⟩)

/-- Appending a fresh record does not shadow an existing key. -/
theorem lookup_append_single_of_some (store : List (String × CanonicalPost))
    (k pid : String) (v q : CanonicalPost) (h : store.lookup pid = some q) :
    (store ++ [(k, v)]).lookup pid = some q := by
  induction store with
  | nil => exact Option.noConfusion h
  | cons a rest ih =>
    obtain ⟨ak, av⟩ := a
    rw [List.lookup_cons] at h
    rw [List.cons_append, List.lookup_cons]
    cases hk : pid == ak with
    | true => rw [hk] at h; exact h
    | false => rw [hk] at h; exact ih h

/-- Looking up a key absent from the store finds exactly an appended
record with that key. -/
theorem lookup_append_single_of_none (store : List (String × CanonicalPost))
    (k pid : String) (v : CanonicalPost) (h : store.lookup pid = none) :
    (store ++ [(k, v)]).lookup pid = List.lookup pid [(k, v)] := by
  induction store with
  | nil => rw [List.nil_append]
  | cons a rest ih =>
    obtain ⟨ak, av⟩ := a
    rw [List.lookup_cons] at h
    rw [List.cons_append, List.lookup_cons]
    cases hk : pid == ak with
    | true => rw [hk] at h; exact Option.noConfusion h
    | false => rw [hk] at h; exact ih h

/-- The dedup invariant of the sink, by induction over the attempt
sequence: if the key is fresh in the store, the run records exactly one
`Inserted` for it when some attempt carries it and stores the first such
post; if the key is already stored, every attempt for it is `Duplicate`
and the stored record survives unchanged. -/
theorem runInserts_spec (pid : String) :
    ∀ (posts : List CanonicalPost) (store : List (String × CanonicalPost)),
    (store.lookup pid = none →
        insertedCountFor pid (DedupSink.runInserts store posts).1
          = (if posts.any (fun p => p.postId == pid) then 1 else 0) ∧
        (DedupSink.runInserts store posts).2.lookup pid
          = posts.find? (fun p => p.postId == pid)) ∧
    (∀ q, store.lookup pid = some q →
        insertedCountFor pid (DedupSink.runInserts store posts).1 = 0 ∧
        (DedupSink.runInserts store posts).2.lookup pid = some q) := by
  intro posts
  induction posts with
  | nil =>
    intro store
    refine ⟨fun h => ⟨?_, ?_⟩, fun q h => ⟨?_, ?_⟩⟩
    · simp [DedupSink.runInserts, insertedCountFor]
    · simp [DedupSink.runInserts, h]
    · simp [DedupSink.runInserts, insertedCountFor]
    · simp [DedupSink.runInserts, h]
  | cons p ps ih =>
    intro store
    by_cases hpp : (p.postId == pid) = true
    · have hpid : p.postId = pid := eq_of_beq hpp
      constructor
      · intro h
        have hsp : store.lookup p.postId = none := by rw [hpid]; exact h
        have hnew : (store ++ [(p.postId, p)]).lookup pid = some p := by
          rw [lookup_append_single_of_none store p.postId pid p h]
          rw [hpid]
          simp [List.lookup_cons]
        obtain ⟨hc, hl⟩ := (ih (store ++ [(p.postId, p)])).2 p hnew
        constructor
        · simp only [DedupSink.runInserts, DedupSink.insert, hsp]
          simp only [insertedCountFor, List.filter_cons] at hc ⊢
          simp [hpp, hc, List.any_cons]
        · simp only [DedupSink.runInserts, DedupSink.insert, hsp]
          simp [hl, List.find?_cons, hpp]
      · intro q h
        have hsp : store.lookup p.postId = some q := by rw [hpid]; exact h
        obtain ⟨hc, hl⟩ := (ih store).2 q h
        constructor
        · simp only [DedupSink.runInserts, DedupSink.insert, hsp]
          simp only [insertedCountFor, List.filter_cons] at hc ⊢
          simp [hc]
        · simp only [DedupSink.runInserts, DedupSink.insert, hsp]
          exact hl
    · have hppf : (p.postId == pid) = false := by
        rw [Bool.not_eq_true] at hpp; exact hpp
      cases hsp : store.lookup p.postId with
      | some w =>
        constructor
        · intro h
          obtain ⟨hc, hl⟩ := (ih store).1 h
          constructor
          · simp only [DedupSink.runInserts, DedupSink.insert, hsp]
            simp only [insertedCountFor, List.filter_cons] at hc ⊢
            simp [hppf, hc, List.any_cons]
          · simp only [DedupSink.runInserts, DedupSink.insert, hsp]
            simp [hl, List.find?_cons, hppf]
        · intro q h
          obtain ⟨hc, hl⟩ := (ih store).2 q h
          constructor
          · simp only [DedupSink.runInserts, DedupSink.insert, hsp]
            simp only [insertedCountFor, List.filter_cons] at hc ⊢
            simp [hppf, hc]
          · simp only [DedupSink.runInserts, DedupSink.insert, hsp]
            exact hl
      | none =>
        constructor
        · intro h
          have hbeqf : (pid == p.postId) = false := by
            cases hk : pid == p.postId with
            | false => rfl
            | true =>
              rw [← eq_of_beq hk] at hppf
              simp at hppf
          have hnew : (store ++ [(p.postId, p)]).lookup pid = none := by
            rw [lookup_append_single_of_none store p.postId pid p h]
            simp [List.lookup_cons, hbeqf]
          obtain ⟨hc, hl⟩ := (ih (store ++ [(p.postId, p)])).1 hnew
          constructor
          · simp only [DedupSink.runInserts, DedupSink.insert, hsp]
            simp only [insertedCountFor, List.filter_cons] at hc ⊢
            simp [hppf, hc, List.any_cons]
          · simp only [DedupSink.runInserts, DedupSink.insert, hsp]
            simp [hl, List.find?_cons, hppf]
        · intro q h
          have hnew : (store ++ [(p.postId, p)]).lookup pid = some q :=
            lookup_append_single_of_some store p.postId pid p q h
          obtain ⟨hc, hl⟩ := (ih (store ++ [(p.postId, p)])).2 q hnew
          constructor
          · simp only [DedupSink.runInserts, DedupSink.insert, hsp]
            simp only [insertedCountFor, List.filter_cons] at hc ⊢
            simp [hppf, hc]
          · simp only [DedupSink.runInserts, DedupSink.insert, hsp]
            exact hl

/-- Runs compose: inserting the concatenation of two attempt lists leaves
the same store as threading the final store of the first run into the
second run. -/
theorem runInserts_append (l1 l2 : List CanonicalPost) :
    ∀ store, (DedupSink.runInserts store (l1 ++ l2)).2
      = (DedupSink.runInserts (DedupSink.runInserts store l1).2 l2).2 := by
  induction l1 with
  | nil => intro store; rfl
  | cons p ps ih =>
    intro store
    simp only [List.cons_append, DedupSink.runInserts]
    exact ih _

/-- Claim C6 (spec-modelled): for a `postId` fresh in the store, any
sequence of insert attempts carrying it, in any order and mixed with other
attempts, yields exactly one `Inserted` outcome; the stored record is the
first post inserted under that key (later content never overwrites it);
and runs compose, so the same holds across any number of runs threading
one store. -/
theorem dedup_insert_idempotent (posts : List CanonicalPost) (pid : String)
    (store : List (String × CanonicalPost))
    (hfresh : store.lookup pid = none)
    (hsome : posts.any (fun p => p.postId == pid) = true) :
    insertedCountFor pid (DedupSink.runInserts store posts).1 = 1 ∧
    (DedupSink.runInserts store posts).2.lookup pid
      = posts.find? (fun p => p.postId == pid) ∧
    ∀ l1 l2 : List CanonicalPost, (DedupSink.runInserts store (l1 ++ l2)).2
      = (DedupSink.runInserts (DedupSink.runInserts store l1).2 l2).2 := by
  obtain ⟨hc, hl⟩ := (runInserts_spec pid posts store).1 hfresh
  rw [hsome] at hc
  exact ⟨by simpa using hc, hl, fun l1 l2 => runInserts_append l1 l2 store⟩

/-- Witness for claim C6: two attempts with the same `postId` and
different content plus one unrelated attempt, against an empty store. -/
theorem dedup_insert_idempotent_witness :
    insertedCountFor "p1" (DedupSink.runInserts []
      [⟨"p1", "A", none⟩, ⟨"p1", "B", some "x"⟩, ⟨"p2", "C", none⟩]).1 = 1 ∧
    (DedupSink.runInserts []
      [⟨"p1", "A", none⟩, ⟨"p1", "B", some "x"⟩, ⟨"p2", "C", none⟩]).2.lookup "p1"
      = List.find? (fun p => p.postId == "p1")
          [⟨"p1", "A", none⟩, ⟨"p1", "B", some "x"⟩, ⟨"p2", "C", none⟩] ∧
    ∀ l1 l2 : List CanonicalPost, (DedupSink.runInserts ([] : List (String × CanonicalPost)) (l1 ++ l2)).2
      = (DedupSink.runInserts (DedupSink.runInserts [] l1).2 l2).2 :=
  dedup_insert_idempotent
    [⟨"p1", "A", none⟩, ⟨"p1", "B", some "x"⟩, ⟨"p2", "C", none⟩] "p1" []
    rfl (by decide)
